import Mathlib

/-!
Shallow embedding of the resilient media retrieval engine of the
astrbot_plugin_videos_analysis repository: cookie normalization
(douyin_scraper/cookie_extractor.py), link resolution and strategic
download (douyin_download.py), provider payload parsing (douyin_get.py),
provider failover (xhs_get.py) and the retention sweep (auto_delete.py).

Effects are made explicit: HTTP traffic is an oracle `net : Nat → Resp`
giving the response to the i-th request a call issues (the index is
threaded through and serves as the fetch counter), and the filesystem is
a list of (path, size) pairs.  An operation that the Python code lets
raise an exception is embedded as an `Option`/`Except` returning `none`
or `.error`.
-/

namespace VideosAnalysis

/-! ### Python string primitives, modelled on `List Char` -/

/-- Characters stripped by Python `str.strip()`: the Unicode whitespace
set used by `str.isspace`. -/
def pyIsSpace (c : Char) : Bool :=
  c.toNat = 9 || c.toNat = 10 || c.toNat = 11 || c.toNat = 12 || c.toNat = 13 ||
  c.toNat = 28 || c.toNat = 29 || c.toNat = 30 || c.toNat = 31 || c.toNat = 32 ||
  c.toNat = 0x85 || c.toNat = 0xa0 || c.toNat = 0x1680 ||
  (0x2000 ≤ c.toNat && c.toNat ≤ 0x200a) ||
  c.toNat = 0x2028 || c.toNat = 0x2029 || c.toNat = 0x202f ||
  c.toNat = 0x205f || c.toNat = 0x3000

/-- Python `s.strip()`. -/
def stripL (l : List Char) : List Char :=
  ((l.dropWhile pyIsSpace).reverse.dropWhile pyIsSpace).reverse

/-- Python `s.split(sep)` for a one-character separator `sep`: a
separator opens a new (initially empty) piece, any other character is
prepended to the first piece of the split of the rest (which is never
empty, see `splitOnChar_ne_nil`). -/
def splitOnChar (c : Char) : List Char → List (List Char)
  | [] => [[]]
  | a :: rest =>
    let r := splitOnChar c rest
    if a = c then [] :: r else (a :: r.headD []) :: r.tail

/-- Python `sep.join(pieces)` for a one-character separator `sep`. -/
def joinChar (c : Char) : List (List Char) → List Char
  | [] => []
  | [p] => p
  | p :: q :: ps => p ++ c :: joinChar c (q :: ps)

/-- Python `s.replace(" ", "")`: every space character is removed,
interior ones included. -/
def removeSpaces (l : List Char) : List Char := l.filter (fun c => c != ' ')

/-- Python substring containment `sub in hay`. -/
def listContainsSub (needle : List Char) : List Char → Bool
  | [] => needle.isEmpty
  | a :: rest => needle.isPrefixOf (a :: rest) || listContainsSub needle rest

/-- `sub in hay` on strings. -/
def strContains (hay sub : String) : Bool := listContainsSub sub.data hay.data

/-- Python `s.lower()`, restricted to its effect on ASCII letters (the
only characters the URL patterns tested against it contain). -/
def lowerStr (s : String) : String := ⟨s.data.map Char.toLower⟩

/-! ### Cookie extractor (douyin_scraper/cookie_extractor.py) -/

/-- The twelve required identity fields, in the fixed order the source
defines (`required_cookies`). -/
def required_cookies : List String :=
  ["odin_tt", "passport_fe_beating_status", "sid_guard", "uid_tt", "uid_tt_ss",
   "sid_tt", "sessionid", "sessionid_ss", "sid_ucp_v1", "ssid_ucp_v1",
   "passport_assist_user", "ttwid"]

/-- The four critical fields (`critical_fields`). -/
def critical_fields : List String := ["sessionid", "uid_tt", "ttwid", "sid_guard"]

/-- One `name=value` segment: `pair.split("=", 1)` followed by `.strip()`
on both sides. -/
def pairOfSegment (p : List Char) : String × String :=
  (⟨stripL (p.takeWhile (fun c => c != '='))⟩,
   ⟨stripL ((p.dropWhile (fun c => c != '=')).drop 1)⟩)

/-- The parsing loop of `extract_douyin_cookies`: when the raw string
contains `=`, all spaces are removed, the result is split on `;`, and
every segment containing `=` is split once at the first `=`.  The Python
dict is modelled as the list of assignments in order; lookups take the
last binding, which is exactly dict-overwrite semantics. -/
def parseCookieDict (s : String) : List (String × String) :=
  if s.data.contains '=' then
    (splitOnChar ';' (removeSpaces s.data)).foldl
      (fun d pair => if pair.contains '=' then d ++ [pairOfSegment pair] else d) []
  else []

/-- Last-binding lookup in the assignment list (dict `.get`). -/
def assocGetLast (l : List (String × String)) (k : String) : Option String :=
  ((l.filter (fun p => p.1 == k)).getLast?).map Prod.snd

/-- `extracted[name] = cookie_dict.get(name, "xxx")`. -/
def cookieValue (s : String) (name : String) : String :=
  (assocGetLast (parseCookieDict s) name).getD "xxx"

/-- The `extracted` mapping over the twelve required fields, in order. -/
def extractedFields (s : String) : List (String × String) :=
  required_cookies.map (fun n => (n, cookieValue s n))

/-- `missing_fields`: required fields whose value is `"xxx"` or empty. -/
def missingFields (s : String) : List String :=
  ((extractedFields s).filter (fun p => p.2 == "xxx" || p.2 == "")).map Prod.fst

/-- `critical_missing`: critical fields among the missing ones. -/
def criticalMissing (s : String) : List String :=
  critical_fields.filter (fun f => (missingFields s).contains f)

/-- `is_valid = len(critical_missing) == 0`. -/
def is_valid (s : String) : Bool := (criticalMissing s).isEmpty

/-- `";".join(cookie_pairs) + ";"` where each pair is rendered
`name=value`. -/
def formatted_cookie (s : String) : String :=
  ⟨joinChar ';' ((extractedFields s).map (fun p => p.1.data ++ '=' :: p.2.data)) ++ [';']⟩

/-- `extract_douyin_cookies`: formatted string, validity, field map. -/
def extract_douyin_cookies (s : String) : String × Bool × List (String × String) :=
  (formatted_cookie s, is_valid s, extractedFields s)

/-- `extract_and_format_cookies`: formatted string only. -/
def extract_and_format_cookies (s : String) : String := (extract_douyin_cookies s).1

/-- `clean_cookie` (douyin_download.py): empty input short-circuits;
otherwise the formatted cookie is filtered by the regex
`[^\x00-\x7F]+ -> ""`, i.e. only characters with codepoint at most 0x7F
are kept. -/
def clean_cookie (cookie : String) : String :=
  if cookie = "" then ""
  else ⟨(extract_and_format_cookies cookie).data.filter (fun c => decide (c.toNat ≤ 0x7F))⟩

/-! ### Provider payload parsing (douyin_get.py)

JSON payloads are embedded as structures whose always-present keys are
plain fields; a key the source reads but a payload may omit is an
`Option` field, and a list subscript is `List.get?`, so `none` marks the
point where the Python code would raise `KeyError`/`IndexError`. -/

structure PlayAddr where
  url_list : List String
deriving DecidableEq

structure SegVideo where
  play_addr_h264 : PlayAddr
deriving DecidableEq

/-- One entry of `data["images"]`: a gallery image or a video segment.
`video` is the optional playable sub-object. -/
structure ImageEntry where
  url_list : List String
  video : Option SegVideo
deriving DecidableEq

structure SingleVideo where
  play_addr : PlayAddr
deriving DecidableEq

/-- The `data` object of the primary provider response. -/
structure DouyinPayload where
  aweme_id : String
  media_type : Int
  images : Option (List ImageEntry)
  video : Option SingleVideo
deriving DecidableEq

/-- The `result` record built by `parse_douyin_data`. -/
structure ParseResult where
  type : Option String
  is_multi_part : Bool
  count : Nat
  download_links : List String
  title : String
deriving DecidableEq

/-- A loop that applies `f` to each element in order and aborts on the
first failure, as a raising Python `for` loop does. -/
def mapOpt {α β : Type} (f : α → Option β) : List α → Option (List β)
  | [] => some []
  | a :: l =>
    match f a with
    | none => none
    | some b => (mapOpt f l).map (fun bs => b :: bs)

/-- Per-segment link selection for media_type 42:
`video["video"]["play_addr_h264"]["url_list"][2]` is evaluated first
(raising when the key or the index is absent); when it is a non-empty
(truthy) string it is taken, otherwise `video["url_list"][2]`. -/
def segLink (v : ImageEntry) : Option String :=
  match v.video with
  | none => none
  | some sv =>
    match sv.play_addr_h264.url_list.get? 2 with
    | none => none
    | some s => if s ≠ "" then some s else v.url_list.get? 2

/-- `parse_douyin_data`.  In the media_type 4 branch the source never
assigns `result["count"]`, so the record keeps the initial 0. -/
def parse_douyin_data (d : DouyinPayload) : Option ParseResult :=
  if d.media_type = 2 then
    match d.images with
    | none => none
    | some images =>
      if images.length > 1 then
        (mapOpt (fun img => img.url_list.get? 0) images).map
          (fun links => ⟨some "image", true, images.length, links, d.aweme_id⟩)
      else
        match images.get? 0 with
        | none => none
        | some img =>
          match img.url_list.get? 0 with
          | none => none
          | some u => some ⟨some "image", false, images.length, [u], d.aweme_id⟩
  else if d.media_type = 42 then
    match d.images with
    | none => none
    | some videos =>
      (mapOpt segLink videos).map
        (fun links => ⟨some "video", true, videos.length, links, d.aweme_id⟩)
  else if d.media_type = 4 then
    match d.video with
    | none => none
    | some v =>
      match v.play_addr.url_list.get? 2 with
      | none => none
      | some u => some ⟨some "video", false, 0, [u], d.aweme_id⟩
  else
    some ⟨none, false, 0, [], d.aweme_id⟩

/-- A media_type 4 payload whose video has a three-entry quality list. -/
def exSingleVideo : DouyinPayload :=
  ⟨"7100000000000000000", 4, none, some ⟨⟨["u0", "u1", "u2"]⟩⟩⟩

/-- A media_type 42 payload with one segment whose preferred
play-address list has only two entries (index 2 absent). -/
def exShortSegments : DouyinPayload :=
  ⟨"a1", 42, some [⟨["x", "y", "z"], some ⟨⟨["p0", "p1"]⟩⟩⟩], none⟩

/-! ### Strategic downloader (douyin_download.py)

The network oracle `net : Nat → Resp` yields the response of the i-th
HTTP request the call under study issues; the request index is threaded
through every function, so `k' - k` is the number of fetches performed.
Request headers, strategy rotation and cookies only select the client
identity presented to the server, which the oracle abstracts over, so
they have no observable effect in the model and the `cookie` parameters
are carried for signature fidelity only. -/

/-- One HTTP response: status, optional `Location` header, body size in
bytes, and whether the request itself raised a client error. -/
structure Resp where
  status : Nat
  location : Option String
  body_len : Nat
  net_error : Bool
deriving DecidableEq

/-- The download directory: (path, size) pairs. -/
abbrev FS := List (String × Nat)

def fsExists (name : String) (fs : FS) : Bool := fs.any (fun f => f.1 == name)

def fsWrite (name : String) (size : Nat) (fs : FS) : FS :=
  (name, size) :: fs.filter (fun f => f.1 != name)

def fsRemove (name : String) (fs : FS) : FS := fs.filter (fun f => f.1 != name)

/-- The record returned by `get_location_from_url`. -/
structure LocData where
  url : String
  location : Option String
  status_code : Option Nat
  error : Bool
deriving DecidableEq

/-- `get_location_from_url`: one non-redirect-following GET; on 301/302
the `Location` header is reported, otherwise the status is carried and
`location` is absent; a client error yields an error record. -/
def get_location_from_url (url : String) (net : Nat → Resp) (k : Nat) :
    LocData × Nat :=
  let r := net k
  if r.net_error then ({url := url, location := none, status_code := none, error := true}, k + 1)
  else if r.status = 302 ∨ r.status = 301 then
    ({url := url, location := r.location, status_code := none, error := false}, k + 1)
  else
    ({url := url, location := none, status_code := some r.status, error := false}, k + 1)

/-- `"douyinpic.com" in url and any(ext in url.lower() for ext in ...)`. -/
def isDouyinImageUrl (url : String) : Bool :=
  strContains url "douyinpic.com" &&
    ([".jpg", ".jpeg", ".png", ".webp", "image"].any (fun ext => strContains (lowerStr url) ext))

/-- The attempt loop of `download_douyin_image`, by remaining attempts:
a client error or a non-200/404 status falls through to the next
attempt; 200 with more than 1000 body bytes writes the file and
succeeds; 200 with a small body is rejected without writing; 404
returns failure at once. -/
def imageAttempts (filename : String) (net : Nat → Resp) (fs : FS) (k : Nat) :
    Nat → Bool × FS × Nat
  | 0 => (false, fs, k)
  | rem + 1 =>
    let r := net k
    if r.net_error then imageAttempts filename net fs (k + 1) rem
    else if r.status = 200 then
      if 1000 < r.body_len then (true, fsWrite filename r.body_len fs, k + 1)
      else imageAttempts filename net fs (k + 1) rem
    else if r.status = 404 then (false, fs, k + 1)
    else imageAttempts filename net fs (k + 1) rem

/-- `download_douyin_image`: an existing destination short-circuits with
success and no fetch; otherwise up to `max_retries = 5` attempts run. -/
def download_douyin_image (url filename : String) (cookie : Option String)
    (net : Nat → Resp) (fs : FS) (k : Nat) : Bool × FS × Nat :=
  if fsExists filename fs then (true, fs, k)
  else imageAttempts filename net fs k 5

/-- The attempt loop of `download_video`, by remaining attempts.  A 403
immediately refetches with mobile headers inside the same attempt and the
retry response replaces the original.  `raise_for_status` turns any
status of 400 or more into a client error, which the `except` clause
catches and retries.  A surviving 304 returns without writing.  Otherwise
the body is streamed to disk and an empty file is removed and retried. -/
def videoAttempts (filename : String) (net : Nat → Resp) (fs : FS) (k : Nat) :
    Nat → FS × Nat
  | 0 => (fs, k)
  | rem + 1 =>
    let r := net k
    if r.net_error then videoAttempts filename net fs (k + 1) rem
    else
      let resp := if r.status = 403 then net (k + 1) else r
      let k2 := if r.status = 403 then k + 2 else k + 1
      if resp.net_error then videoAttempts filename net fs k2 rem
      else if 400 ≤ resp.status then videoAttempts filename net fs k2 rem
      else if resp.status = 304 then (fs, k2)
      else
        let fs' := fsWrite filename resp.body_len fs
        if 0 < resp.body_len then (fs', k2)
        else videoAttempts filename net (fsRemove filename fs') k2 rem

/-- `download_video`: an existing destination short-circuits with no
fetch; otherwise `max_retries = 3` attempts run.  The function reports
nothing to its caller (Python returns `None` on every path). -/
def download_video (url filename : String) (cookie : Option String)
    (net : Nat → Resp) (fs : FS) (k : Nat) : FS × Nat :=
  if fsExists filename fs then (fs, k)
  else videoAttempts filename net fs k 3

/-- `download`: a douyinpic image URL goes to the specialized image
downloader (whose Bool result is returned); every other URL first goes
through `get_location_from_url` and then `download_video` on the
resolved target when a truthy `location` was found, else on the original
URL; on that path nothing is returned. -/
def download (url filename : String) (cookie : Option String)
    (net : Nat → Resp) (fs : FS) (k : Nat) : Option Bool × FS × Nat :=
  if isDouyinImageUrl url then
    let r := download_douyin_image url filename cookie net fs k
    (some r.1, r.2.1, r.2.2)
  else
    let lr := get_location_from_url url net k
    match lr.1.location with
    | some l =>
      if l = "" then
        let r := download_video url filename cookie net fs lr.2
        (none, r.1, r.2)
      else
        let r := download_video l filename cookie net fs lr.2
        (none, r.1, r.2)
    | none =>
      let r := download_video url filename cookie net fs lr.2
      (none, r.1, r.2)

/-! ### Provider failover (xhs_get.py)

`fetch` either decodes a JSON body or raises (client error, non-JSON
content type, decode failure); both are one `Except Unit XhsResp`.
The primary endpoint is queried at most once, so its oracle is a single
value; the secondary endpoint may be queried repeatedly, so its oracle
is indexed by the query number.  `fetch_head` resolves a content length
per URL. -/

/-- A provider field that is either a bare string or an array. -/
inductive StrOrList where
  | str : String → StrOrList
  | list : List String → StrOrList
deriving DecidableEq

/-- The `data` object of a provider response; `images` and
`download_url` are the optional media fields, `image_url` the optional
cover. -/
structure XhsData where
  title : String
  video_title : String
  images : Option StrOrList
  download_url : Option StrOrList
  image_url : Option String
deriving DecidableEq

/-- A decoded provider response. -/
structure XhsResp where
  code : Option Int
  success : Option Int
  data : Option XhsData
deriving DecidableEq

/-- The outcome `xhs_parse` hands back: an image record, a video record,
or the structured error dict. -/
inductive XhsOutcome where
  | image (title : String) (count : Nat) (urls : List String)
  | video (title : String) (count : Nat) (sizes : List Nat) (urls : List String)
      (cover : String) (size : Nat)
  | err
deriving DecidableEq

/-- Cardinality coercion: a bare string becomes a one-element list. -/
def coerceUrls : StrOrList → List String
  | .str s => [s]
  | .list l => l

/-- Lines 39-68 of xhs_get.py: the block that inspects whichever decoded
response survived the failover.  It runs outside every `try`, so the
`KeyError` raised by `result["data"]` when `success == 1` but the key is
absent propagates (`.error`). -/
def handle_result (head : String → Nat) (r : XhsResp) : Except Unit XhsOutcome :=
  if r.success = some 1 then
    match r.data with
    | none => .error ()
    | some d =>
      match d.images with
      | some il =>
        let images := coerceUrls il
        .ok (.image d.title images.length images)
      | none =>
        match d.download_url with
        | some ul =>
          let urls := coerceUrls ul
          let sizes := urls.map head
          .ok (.video d.video_title urls.length sizes urls ((d.image_url).getD "") sizes.sum)
        | none => .ok .err
  else .ok .err

/-- `xhs_parse`, returning the outcome (`.error` = an exception escapes
to the caller) together with the number of secondary-endpoint queries.
A maintenance code 201 from the primary switches to the secondary inside
the `try`; an exception anywhere inside the `try` (primary fetch, or
that first secondary fetch) lands in the `except` block, which queries
the secondary again with no protection, so a failure there escapes. -/
def xhs_parse (prim : Except Unit XhsResp) (sec : Nat → Except Unit XhsResp)
    (head : String → Nat) : Except Unit XhsOutcome × Nat :=
  match prim with
  | .ok r =>
    if r.code = some 201 then
      match sec 0 with
      | .ok r2 => (handle_result head r2, 1)
      | .error _ =>
        match sec 1 with
        | .ok r3 => (handle_result head r3, 2)
        | .error e => (.error e, 2)
    else (handle_result head r, 0)
  | .error _ =>
    match sec 0 with
    | .ok r2 => (handle_result head r2, 1)
    | .error e => (.error e, 1)

instance {ε α : Type} [DecidableEq ε] [DecidableEq α] : DecidableEq (Except ε α) := fun a b =>
  match a, b with
  | .ok x, .ok y =>
    if h : x = y then isTrue (by rw [h]) else isFalse (fun c => by cases c; exact h rfl)
  | .error x, .error y =>
    if h : x = y then isTrue (by rw [h]) else isFalse (fun c => by cases c; exact h rfl)
  | .ok _, .error _ => isFalse (fun c => by cases c)
  | .error _, .ok _ => isFalse (fun c => by cases c)

/-! ### Retention sweep (auto_delete.py) -/

/-- One directory entry as the sweep sees it: `is_file` is the
`os.path.isfile` answer, `mtime` the last-modified time in seconds, and
`removeFails` marks a file whose `os.remove`/`os.path.getmtime` raises
`OSError` (caught per file, leaving the file in place and uncounted). -/
structure FileEntry where
  name : String
  is_file : Bool
  mtime : Int
  removeFails : Bool
deriving DecidableEq

/-- The expiry test of the sweep: regular file strictly older than the
threshold in seconds. -/
def expiredB (thresholdSeconds now : Int) (e : FileEntry) : Bool :=
  e.is_file && decide (thresholdSeconds < now - e.mtime)

/-- The per-entry loop of `delete_old_files`: returns the deletion count
and the entries that remain in the directory. -/
def sweepEntries (thresholdSeconds now : Int) : List FileEntry → Nat × List FileEntry
  | [] => (0, [])
  | e :: rest =>
    let r := sweepEntries thresholdSeconds now rest
    if expiredB thresholdSeconds now e then
      if e.removeFails then (r.1, e :: r.2)
      else (r.1 + 1, r.2)
    else (r.1, e :: r.2)

/-- `delete_old_files`: `listing = none` models a directory-level
failure (`os.makedirs` or `os.listdir` raising), which the outer
`except` turns into a zero count; otherwise the entries are swept with
`time_threshold_minutes * 60` seconds as the age bound. -/
def delete_old_files (listing : Option (List FileEntry))
    (time_threshold_minutes : Int) (now : Int) : Nat × Option (List FileEntry) :=
  match listing with
  | none => (0, none)
  | some entries =>
    let r := sweepEntries (time_threshold_minutes * 60) now entries
    (r.1, some r.2)

/-! ### Helper lemmas -/

theorem foldl_filter_map {α β : Type} (q : α → Bool) (g : α → β) :
    ∀ (l : List α) (acc : List β),
      l.foldl (fun d p => if q p then d ++ [g p] else d) acc
        = acc ++ (l.filter q).map g := by
  intro l
  induction l with
  | nil => intro acc; simp
  | cons a l ih =>
    intro acc
    by_cases h : q a
    · simp [List.foldl_cons, h, ih, List.filter_cons]
    · simp [List.foldl_cons, h, ih, List.filter_cons]

theorem headD_mem {α : Type} (l : List α) (d : α) (h : l ≠ []) : l.headD d ∈ l := by
  cases l with
  | nil => exact absurd rfl h
  | cons a rest => simp

theorem splitOnChar_ne_nil (c : Char) (l : List Char) : splitOnChar c l ≠ [] := by
  cases l with
  | nil => simp [splitOnChar]
  | cons a rest =>
    simp only [splitOnChar]
    split <;> simp

theorem sep_not_mem_of_mem_splitOnChar {c : Char} :
    ∀ {l : List Char} {p : List Char}, p ∈ splitOnChar c l → c ∉ p := by
  intro l
  induction l with
  | nil => intro p hp; simp [splitOnChar] at hp; simp [hp]
  | cons a rest ih =>
    intro p hp
    simp only [splitOnChar] at hp
    by_cases h : a = c
    · rw [if_pos h] at hp
      rcases List.mem_cons.mp hp with h1 | h1
      · simp [h1]
      · exact ih h1
    · rw [if_neg h] at hp
      rcases List.mem_cons.mp hp with h1 | h1
      · subst h1
        intro hc
        rcases List.mem_cons.mp hc with h2 | h2
        · exact h h2.symm
        · exact ih (headD_mem _ _ (splitOnChar_ne_nil c rest)) h2
      · exact ih (List.mem_of_mem_tail h1)

theorem splitOnChar_append_sep (c : Char) :
    ∀ (xs ys : List Char), c ∉ xs →
      splitOnChar c (xs ++ c :: ys) = xs :: splitOnChar c ys := by
  intro xs
  induction xs with
  | nil => intro ys _; simp [splitOnChar]
  | cons a xs ih =>
    intro ys h
    have ha : a ≠ c := fun hac => h (hac ▸ List.mem_cons_self a xs)
    have hxs : c ∉ xs := fun hc => h (List.mem_cons.mpr (Or.inr hc))
    rw [List.cons_append]
    simp only [splitOnChar]
    rw [if_neg ha, ih ys hxs]
    simp

theorem splitOnChar_joinChar (c : Char) :
    ∀ (ps : List (List Char)), ps ≠ [] → (∀ p ∈ ps, c ∉ p) →
      splitOnChar c (joinChar c ps ++ [c]) = ps ++ [[]] := by
  intro ps
  induction ps with
  | nil => intro h; exact absurd rfl h
  | cons p ps ih =>
    intro _ hmem
    cases ps with
    | nil =>
      have hp : c ∉ p := hmem p (List.mem_cons_self p [])
      show splitOnChar c (p ++ [c]) = [p, []]
      have := splitOnChar_append_sep c p [] hp
      simpa [splitOnChar] using this
    | cons q qs =>
      have hp : c ∉ p := hmem p (List.mem_cons_self p (q :: qs))
      have hrest : ∀ r ∈ q :: qs, c ∉ r := fun r hr => hmem r (List.mem_cons.mpr (Or.inr hr))
      show splitOnChar c ((p ++ c :: joinChar c (q :: qs)) ++ [c]) = (p :: q :: qs) ++ [[]]
      rw [List.append_assoc, List.cons_append, splitOnChar_append_sep c p _ hp,
        ih (by simp) hrest]
      simp

theorem mem_of_mem_stripL {x : Char} {l : List Char} (h : x ∈ stripL l) : x ∈ l := by
  unfold stripL at h
  rw [List.mem_reverse] at h
  have h1 := (List.dropWhile_sublist pyIsSpace).subset h
  rw [List.mem_reverse] at h1
  exact (List.dropWhile_sublist pyIsSpace).subset h1

theorem mapOpt_eq_none_of_mem {α β : Type} (f : α → Option β) :
    ∀ {l : List α} {x : α}, x ∈ l → f x = none → mapOpt f l = none := by
  intro l
  induction l with
  | nil => intro x hx; simp at hx
  | cons a l ih =>
    intro x hx hf
    rcases List.mem_cons.mp hx with h1 | h1
    · subst h1; simp [mapOpt, hf]
    · unfold mapOpt
      cases hfa : f a with
      | none => rfl
      | some b => rw [ih h1 hf]; rfl

theorem assocGetLast_mem {l : List (String × String)} {k v : String}
    (h : assocGetLast l k = some v) : (k, v) ∈ l := by
  unfold assocGetLast at h
  cases hg : (l.filter (fun p => p.1 == k)).getLast? with
  | none => rw [hg] at h; simp at h
  | some a =>
    rw [hg] at h
    have ha := List.mem_of_getLast?_eq_some hg
    rw [List.mem_filter] at ha
    have h2 : a.2 = v := by simpa using h
    have h1 : a.1 = k := by simpa using ha.2
    have : a = (k, v) := Prod.ext h1 h2
    exact this ▸ ha.1

/-- The parsing loop, re-expressed as filter-and-map over the
segments. -/
theorem parseCookieDict_eq (s : String) (h : s.data.contains '=' = true) :
    parseCookieDict s =
      ((splitOnChar ';' (removeSpaces s.data)).filter (fun p => p.contains '=')).map
        pairOfSegment := by
  unfold parseCookieDict
  rw [if_pos h, foldl_filter_map]
  simp

theorem parseCookieDict_value_no_semicolon {s : String} {n v : String}
    (h : (n, v) ∈ parseCookieDict s) : ';' ∉ v.data := by
  by_cases hc : s.data.contains '=' = true
  · rw [parseCookieDict_eq s hc] at h
    rw [List.mem_map] at h
    obtain ⟨p, hp, hpair⟩ := h
    rw [List.mem_filter] at hp
    have hsep : ';' ∉ p := sep_not_mem_of_mem_splitOnChar hp.1
    have hv : (pairOfSegment p).2 = v := congrArg Prod.snd hpair
    intro hmem
    rw [← hv] at hmem
    have hmem2 : ';' ∈ stripL ((p.dropWhile (fun c => c != '=')).drop 1) := hmem
    have h1 := mem_of_mem_stripL hmem2
    have h2 := (List.drop_sublist 1 (p.dropWhile (fun c => c != '='))).subset h1
    have h3 := (List.dropWhile_sublist (fun c => c != '=')).subset h2
    exact hsep h3
  · unfold parseCookieDict at h
    rw [if_neg hc] at h
    simp at h

theorem cookieValue_no_semicolon (s : String) (n : String) :
    ';' ∉ (cookieValue s n).data := by
  unfold cookieValue
  cases hg : assocGetLast (parseCookieDict s) n with
  | none => decide
  | some v =>
    rw [Option.getD_some]
    exact parseCookieDict_value_no_semicolon (assocGetLast_mem hg)

/-! ### Claim theorems -/

/-- C5 (corrected), counterexample to the claim as stated: in
`sessionid=xxx;uid_tt=a;ttwid=b;sid_guard=c` all four critical fields
are present with non-empty values, yet `is_valid` is false, because the
source treats the literal placeholder value `xxx` as missing. -/
theorem C5_counterexample :
    assocGetLast (parseCookieDict "sessionid=xxx;uid_tt=a;ttwid=b;sid_guard=c") "sessionid"
        = some "xxx" ∧
    assocGetLast (parseCookieDict "sessionid=xxx;uid_tt=a;ttwid=b;sid_guard=c") "uid_tt"
        = some "a" ∧
    assocGetLast (parseCookieDict "sessionid=xxx;uid_tt=a;ttwid=b;sid_guard=c") "ttwid"
        = some "b" ∧
    assocGetLast (parseCookieDict "sessionid=xxx;uid_tt=a;ttwid=b;sid_guard=c") "sid_guard"
        = some "c" ∧
    is_valid "sessionid=xxx;uid_tt=a;ttwid=b;sid_guard=c" = false := by decide

/-- C5 (corrected, amended): `is_valid` is true iff every critical field
parses to a value that is neither the placeholder `xxx` nor empty,
independent of the other eight required fields. -/
theorem C5_is_valid_iff (s : String) :
    is_valid s = true ↔
      ∀ f ∈ critical_fields, cookieValue s f ≠ "xxx" ∧ cookieValue s f ≠ "" := by
  have hmem : ∀ f : String, f ∈ missingFields s ↔
      f ∈ required_cookies ∧ (cookieValue s f = "xxx" ∨ cookieValue s f = "") := by
    intro f
    simp only [missingFields, extractedFields, List.mem_map, List.mem_filter,
      Bool.or_eq_true, beq_iff_eq]
    constructor
    · rintro ⟨x, ⟨⟨n, hn, rfl⟩, hbad⟩, rfl⟩
      exact ⟨hn, hbad⟩
    · rintro ⟨hf, hbad⟩
      exact ⟨(f, cookieValue s f), ⟨⟨f, hf, rfl⟩, hbad⟩, rfl⟩
  have hreq : ∀ f ∈ critical_fields, f ∈ required_cookies := by decide
  unfold is_valid criticalMissing
  rw [List.isEmpty_iff, List.filter_eq_nil_iff]
  constructor
  · intro h f hf
    have h1 := h f hf
    have h2 : f ∉ missingFields s := by
      intro hm
      exact h1 (by simpa [List.contains, List.elem_iff] using hm)
    rw [hmem] at h2
    push_neg at h2
    rcases h2 (hreq f hf) with ⟨hx, he⟩
    exact ⟨hx, he⟩
  · intro h f hf hc
    have hm : f ∈ missingFields s := by
      simpa [List.contains, List.elem_iff] using hc
    rw [hmem] at hm
    rcases h f hf with ⟨hx, he⟩
    rcases hm.2 with h3 | h3
    · exact hx h3
    · exact he h3

/-- C5 witness: a cookie with real values for the four critical fields
is valid. -/
theorem C5_is_valid_iff_witness :
    is_valid "sessionid=a;uid_tt=b;ttwid=c;sid_guard=d" = true ↔
      ∀ f ∈ critical_fields,
        cookieValue "sessionid=a;uid_tt=b;ttwid=c;sid_guard=d" f ≠ "xxx" ∧
        cookieValue "sessionid=a;uid_tt=b;ttwid=c;sid_guard=d" f ≠ "" :=
  C5_is_valid_iff "sessionid=a;uid_tt=b;ttwid=c;sid_guard=d"

/-- C6 (corrected), counterexample to the claim as stated: the control
character U+0001 inside a cookie value survives `clean_cookie` (whose
regex only removes characters above 0x7F), so the header value does
contain a byte outside the printable ASCII range 0x20-0x7E. -/
theorem C6_counterexample :
    ((clean_cookie ("sessionid=a" ++ ⟨[Char.ofNat 1]⟩ ++ "b")).data.all
        (fun c => decide (0x20 ≤ c.toNat) && decide (c.toNat ≤ 0x7e))) = false := by decide

/-- C6 (corrected, amended): the formatted cookie lists exactly the
twelve required field names in the fixed order (first conjunct), its
segments between `;` separators are precisely `name=value` for those
fields in order with a trailing empty segment after the final `;`
(second conjunct), and the header value produced by `clean_cookie`
contains no character above the ASCII range 0x7F (third conjunct) —
though ASCII control characters may remain. -/
theorem C6_formatted_structure (s : String) :
    ((extractedFields s).map Prod.fst = required_cookies) ∧
    (splitOnChar ';' (formatted_cookie s).data
        = ((extractedFields s).map (fun p => p.1.data ++ '=' :: p.2.data)) ++ [[]]) ∧
    (∀ c ∈ (clean_cookie s).data, c.toNat ≤ 0x7F) := by
  refine ⟨?_, ?_, ?_⟩
  · have hid : (Prod.fst ∘ fun n => (n, cookieValue s n)) = id := rfl
    rw [extractedFields, List.map_map, hid, List.map_id]
  · have hnames : ∀ n ∈ required_cookies, ';' ∉ n.data := by decide
    have hpieces : ∀ p ∈ (extractedFields s).map (fun p => p.1.data ++ '=' :: p.2.data),
        ';' ∉ p := by
      intro p hp
      rw [List.mem_map] at hp
      obtain ⟨x, hx, rfl⟩ := hp
      rw [extractedFields, List.mem_map] at hx
      obtain ⟨n, hn, rfl⟩ := hx
      intro hcmem
      rcases List.mem_append.mp hcmem with h1 | h1
      · exact hnames n hn h1
      · rcases List.mem_cons.mp h1 with h2 | h2
        · exact absurd h2 (by decide)
        · exact cookieValue_no_semicolon s n h2
    have hne : (extractedFields s).map (fun p => p.1.data ++ '=' :: p.2.data) ≠ [] := by
      simp [extractedFields, required_cookies]
    have hdata : (formatted_cookie s).data
        = joinChar ';' ((extractedFields s).map (fun p => p.1.data ++ '=' :: p.2.data))
            ++ [';'] := rfl
    rw [hdata, splitOnChar_joinChar ';' _ hne hpieces]
  · intro c hc
    unfold clean_cookie at hc
    by_cases h : s = ""
    · rw [if_pos h] at hc
      exact absurd hc (List.not_mem_nil c)
    · rw [if_neg h] at hc
      have := (List.mem_filter.mp hc).2
      simpa using this

/-- C6 witness: the structure facts instantiated at a concrete raw
cookie string. -/
theorem C6_formatted_structure_witness :
    ((extractedFields "ttwid=w; other=1").map Prod.fst = required_cookies) ∧
    (splitOnChar ';' (formatted_cookie "ttwid=w; other=1").data
        = ((extractedFields "ttwid=w; other=1").map (fun p => p.1.data ++ '=' :: p.2.data))
            ++ [[]]) ∧
    (∀ c ∈ (clean_cookie "ttwid=w; other=1").data, c.toNat ≤ 0x7F) :=
  C6_formatted_structure "ttwid=w; other=1"

/-- C10 (corrected), counterexample to the claim as stated: the segment
`k=a b` parses to the value `ab`, not `a b` — the interior space of the
value is removed, so interior characters are not preserved. -/
theorem C10_counterexample :
    parseCookieDict "k=a b" = [("k", "ab")] ∧ ("ab" : String) ≠ "a b" := by decide

/-- C10 (corrected, amended): when the raw string contains `=`, every
space character is first removed (interior ones included), the result is
split on `;`, and exactly the segments containing `=` contribute a pair,
split at the first `=` with remaining surrounding whitespace stripped;
when the raw string contains no `=` at all, nothing is parsed. -/
theorem C10_parse_segments (s : String) :
    (s.data.contains '=' = true →
      parseCookieDict s =
        ((splitOnChar ';' (removeSpaces s.data)).filter (fun p => p.contains '=')).map
          pairOfSegment) ∧
    (s.data.contains '=' = false → parseCookieDict s = []) := by
  constructor
  · intro h
    exact parseCookieDict_eq s h
  · intro h
    have h' : '=' ∉ s.data := by simpa using h
    simp [parseCookieDict, h']

/-- C10 witness: the characterization instantiated on a string with one
`=` segment and one `=`-free segment. -/
theorem C10_parse_segments_witness :
    ("k=a b;junk".data.contains '=' = true) ∧
    parseCookieDict "k=a b;junk" =
      ((splitOnChar ';' (removeSpaces "k=a b;junk".data)).filter
          (fun p => p.contains '=')).map pairOfSegment :=
  ⟨by decide, (C10_parse_segments "k=a b;junk").1 (by decide)⟩

/-- C4 (code_bug): on a single-video payload (media_type 4) the parser
returns one download link but leaves `count` at 0, because the source
never assigns `result["count"]` in that branch, violating the invariant
`count == length(download_links)` that holds in the image and
multi-segment branches. -/
theorem C4_media_type4_count :
    parse_douyin_data exSingleVideo
        = some ⟨some "video", false, 0, ["u2"], "7100000000000000000"⟩ ∧
    (parse_douyin_data exSingleVideo).map (fun r => (r.count, r.download_links.length))
        = some (0, 1) := by decide

/-- C7 (corrected), counterexample to the claim as stated: a segment
whose preferred play-address list lacks index 2 makes the lookup itself
fail (Python `IndexError`), aborting the whole parse — the fallback
`url_list` (which here does have an index 2) is never consulted. -/
theorem C7_counterexample : parse_douyin_data exShortSegments = none := by decide

/-- C7 (corrected, amended): per-segment selection takes the entry at
the preferred index 2 of the play-address list when it exists and is
non-empty; it falls back to `url_list[2]` only when that entry exists
but is empty (falsy); when index 2 is absent the lookup fails, and any
failing segment makes `parse_douyin_data` fail for the whole
media_type 42 payload. -/
theorem C7_segment_selection (v : ImageEntry) (sv : SegVideo)
    (hv : v.video = some sv) :
    (∀ s : String, sv.play_addr_h264.url_list.get? 2 = some s → s ≠ "" →
      segLink v = some s) ∧
    (sv.play_addr_h264.url_list.get? 2 = some "" → segLink v = v.url_list.get? 2) ∧
    (sv.play_addr_h264.url_list.get? 2 = none → segLink v = none) ∧
    (∀ (d : DouyinPayload) (videos : List ImageEntry),
      d.media_type = 42 → d.images = some videos → v ∈ videos → segLink v = none →
      parse_douyin_data d = none) := by
  refine ⟨?_, ?_, ?_, ?_⟩
  · intro s hs hne
    rw [List.get?_eq_getElem?] at hs
    simp [segLink, hv, hs, hne]
  · intro hs
    rw [List.get?_eq_getElem?] at hs
    simp [segLink, hv, hs]
  · intro hs
    rw [List.get?_eq_getElem?] at hs
    simp [segLink, hv, hs]
  · intro d videos hmt himg hmem hnone
    have hmap : mapOpt segLink videos = none := mapOpt_eq_none_of_mem segLink hmem hnone
    simp [parse_douyin_data, hmt, himg, hmap]

/-- C7 witness: a well-formed segment where the preferred index exists
and is non-empty, so it is selected. -/
theorem C7_segment_selection_witness :
    ((⟨["x", "y", "z"], some ⟨⟨["a", "b", "ccc"]⟩⟩⟩ : ImageEntry).video
        = some ⟨⟨["a", "b", "ccc"]⟩⟩) ∧
    segLink ⟨["x", "y", "z"], some ⟨⟨["a", "b", "ccc"]⟩⟩⟩ = some "ccc" :=
  ⟨rfl,
   (C7_segment_selection ⟨["x", "y", "z"], some ⟨⟨["a", "b", "ccc"]⟩⟩⟩
     ⟨⟨["a", "b", "ccc"]⟩⟩ rfl).1 "ccc" rfl (by decide)⟩

/-- `get_location_from_url` consumes exactly one request on every
path. -/
theorem get_location_snd (url : String) (net : Nat → Resp) (k : Nat) :
    (get_location_from_url url net k).2 = k + 1 := by
  unfold get_location_from_url
  dsimp only
  split_ifs <;> rfl

/-- C1 (corrected), counterexample to the claim as stated: the
destination file exists, yet `download` on a (non-image) video URL still
issues a network request — the link-resolution fetch happens before the
existence check inside `download_video`. -/
theorem C1_counterexample :
    fsExists "f.mp4" [("f.mp4", 9)] = true ∧
    (download "https://v.douyin.com/abc" "f.mp4" none
        (fun _ => ⟨302, some "u2", 5000, false⟩) [("f.mp4", 9)] 0).2.2 ≠ 0 := by decide

/-- C1 (corrected, amended): with the destination already present, the
image path performs zero fetches and reports success (attempts = 0),
while the video path always performs exactly one fetch (the location
probe), leaves the filesystem unchanged, and reports nothing. -/
theorem C1_download_existing_file (url filename : String) (cookie : Option String)
    (net : Nat → Resp) (fs : FS) (k : Nat) (hex : fsExists filename fs = true) :
    (isDouyinImageUrl url = true →
      download url filename cookie net fs k = (some true, fs, k)) ∧
    (isDouyinImageUrl url = false →
      download url filename cookie net fs k = (none, fs, k + 1)) := by
  constructor
  · intro h
    simp [download, h, download_douyin_image, hex]
  · intro h
    have h2 := get_location_snd url net k
    simp only [download, h, Bool.false_eq_true, if_false]
    cases hloc : (get_location_from_url url net k).1.location with
    | none => simp [hloc, download_video, hex, h2]
    | some l =>
      by_cases hl : l = "" <;> simp [hloc, hl, download_video, hex, h2]

/-- C1 witness: both branches at concrete inputs — an existing file
makes the image path free of fetches and the video path cost exactly the
one resolution fetch. -/
theorem C1_download_existing_file_witness :
    fsExists "f" [("f", 1)] = true ∧
    download "https://p3.douyinpic.com/a.jpg" "f" none
        (fun _ => ⟨200, none, 5000, false⟩) [("f", 1)] 0 = (some true, [("f", 1)], 0) ∧
    download "https://v.douyin.com/abc" "f" none
        (fun _ => ⟨200, none, 5000, false⟩) [("f", 1)] 0 = (none, [("f", 1)], 1) :=
  ⟨by decide,
   (C1_download_existing_file "https://p3.douyinpic.com/a.jpg" "f" none
       (fun _ => ⟨200, none, 5000, false⟩) [("f", 1)] 0 (by decide)).1 (by decide),
   (C1_download_existing_file "https://v.douyin.com/abc" "f" none
       (fun _ => ⟨200, none, 5000, false⟩) [("f", 1)] 0 (by decide)).2 (by decide)⟩

/-- C2 (corrected), counterexample to the claim as stated: on the video
path a constant-404 oracle is fetched three times — the 404 raised by
`raise_for_status` is caught as a client error and retried, so attempt 2
(and 3) are issued. -/
theorem C2_counterexample :
    (download_video "u" "f.mp4" none (fun _ => ⟨404, none, 0, false⟩) [] 0).2 = 3 ∧
    (download_video "u" "f.mp4" none (fun _ => ⟨404, none, 0, false⟩) [] 0).2 ≠ 1 := by
  decide

/-- C2 (corrected, amended): a 404 is terminal on the image path — one
fetch, immediate failure, nothing written; on the video path a 404 is
not terminal: with every response a 404, all three attempts are issued
(three fetches) and the filesystem is unchanged. -/
theorem C2_terminal_404 (url filename : String) (cookie : Option String)
    (net : Nat → Resp) (fs : FS) (k : Nat) (hex : fsExists filename fs = false) :
    ((net k).net_error = false → (net k).status = 404 →
      download_douyin_image url filename cookie net fs k = (false, fs, k + 1)) ∧
    ((∀ i, (net i).net_error = false ∧ (net i).status = 404) →
      download_video url filename cookie net fs k = (fs, k + 3)) := by
  constructor
  · intro hne hst
    simp [download_douyin_image, hex, imageAttempts, hne, hst]
  · intro hall
    have aux : ∀ (rem k2 : Nat), videoAttempts filename net fs k2 rem = (fs, k2 + rem) := by
      intro rem
      induction rem with
      | zero => intro k2; simp [videoAttempts]
      | succ n ih =>
        intro k2
        obtain ⟨h1, h2⟩ := hall k2
        simp [videoAttempts, h1, h2, ih]
        omega
    simp [download_video, hex, aux]

/-- C2 witness: the image path fails after one fetch on a 404, the video
path consumes three fetches on constant 404s. -/
theorem C2_terminal_404_witness :
    fsExists "f" [] = false ∧
    download_douyin_image "u" "f" none (fun _ => ⟨404, none, 0, false⟩) [] 0
        = (false, [], 1) ∧
    download_video "u2" "g" none (fun _ => ⟨404, none, 0, false⟩) [] 5 = ([], 8) :=
  ⟨by decide,
   (C2_terminal_404 "u" "f" none (fun _ => ⟨404, none, 0, false⟩) [] 0 (by decide)).1
     rfl rfl,
   (C2_terminal_404 "u2" "g" none (fun _ => ⟨404, none, 0, false⟩) [] 5 (by decide)).2
     (fun _ => ⟨rfl, rfl⟩)⟩

/-- C8 (confirmed): an image attempt whose 200 response carries at most
1000 body bytes writes nothing (the filesystem argument is passed on
unchanged) and control moves to the next strategy attempt; when every
response is such an under-threshold 200, all five attempts run, no file
is ever produced and the call fails. -/
theorem C8_size_floor (filename : String) (net : Nat → Resp) (fs : FS) (k rem : Nat)
    (hne : (net k).net_error = false) (hst : (net k).status = 200)
    (hsmall : (net k).body_len ≤ 1000) :
    (imageAttempts filename net fs k (rem + 1) = imageAttempts filename net fs (k + 1) rem) ∧
    ((∀ i, (net i).net_error = false ∧ (net i).status = 200 ∧ (net i).body_len ≤ 1000) →
      ∀ url cookie, fsExists filename fs = false →
        download_douyin_image url filename cookie net fs k = (false, fs, k + 5)) := by
  constructor
  · have hn : ¬(1000 < (net k).body_len) := by omega
    simp [imageAttempts, hne, hst, hn]
  · intro hall url cookie hex
    have aux : ∀ (fuel k2 : Nat), imageAttempts filename net fs k2 fuel = (false, fs, k2 + fuel) := by
      intro fuel
      induction fuel with
      | zero => intro k2; simp [imageAttempts]
      | succ n ih =>
        intro k2
        obtain ⟨h1, h2, h3⟩ := hall k2
        have hn : ¬(1000 < (net k2).body_len) := by omega
        simp [imageAttempts, h1, h2, hn, ih]
        omega
    simp [download_douyin_image, hex, aux]

/-- C8 witness: a constant small-200 oracle — one rejected attempt steps
to the next, and the full call fails after five fetches with the
filesystem untouched. -/
theorem C8_size_floor_witness :
    (((fun _ => (⟨200, none, 500, false⟩ : Resp)) (0 : Nat)).net_error = false) ∧
    imageAttempts "f" (fun _ => ⟨200, none, 500, false⟩) [] 0 (0 + 1)
        = imageAttempts "f" (fun _ => ⟨200, none, 500, false⟩) [] (0 + 1) 0 ∧
    download_douyin_image "u" "f" none (fun _ => ⟨200, none, 500, false⟩) [] 0
        = (false, [], 0 + 5) :=
  ⟨rfl,
   (C8_size_floor "f" (fun _ => ⟨200, none, 500, false⟩) [] 0 0 rfl rfl (by decide)).1,
   (C8_size_floor "f" (fun _ => ⟨200, none, 500, false⟩) [] 0 0 rfl rfl (by decide)).2
     (fun _ => ⟨rfl, rfl, by decide⟩) "u" none (by decide)⟩

/-- C3 (corrected), counterexample to the claim as stated: the primary
response carries the maintenance code and every secondary fetch raises —
the secondary is queried twice (not exactly once) and the exception
propagates to the caller instead of a structured error. -/
theorem C3_counterexample :
    xhs_parse (.ok ⟨some 201, none, none⟩) (fun _ => .error ()) (fun _ => 0)
        = (.error (), 2) := by decide

/-- C3 (corrected, amended): on a maintenance code with a succeeding
secondary, or on a raising primary with a succeeding secondary, the
secondary is queried exactly once and its payload is processed; a
secondary that raises after a maintenance code is retried once more (two
queries), and when every issued fetch raises the exception escapes to
the caller; a primary without the maintenance code is processed directly
with no secondary query; and a decoded response that is invalid — not
`success == 1`, or `success == 1` with a payload carrying neither an
`images` nor a `download_url` field — yields the structured error
record. -/
theorem C3_failover (prim : Except Unit XhsResp) (sec : Nat → Except Unit XhsResp)
    (head : String → Nat) :
    (∀ r r2, prim = .ok r → r.code = some 201 → sec 0 = .ok r2 →
      xhs_parse prim sec head = (handle_result head r2, 1)) ∧
    (∀ r2, prim = .error () → sec 0 = .ok r2 →
      xhs_parse prim sec head = (handle_result head r2, 1)) ∧
    (∀ r r3, prim = .ok r → r.code = some 201 → sec 0 = .error () → sec 1 = .ok r3 →
      xhs_parse prim sec head = (handle_result head r3, 2)) ∧
    (∀ r, prim = .ok r → r.code = some 201 → sec 0 = .error () → sec 1 = .error () →
      xhs_parse prim sec head = (.error (), 2)) ∧
    (prim = .error () → sec 0 = .error () → xhs_parse prim sec head = (.error (), 1)) ∧
    (∀ r, prim = .ok r → r.code ≠ some 201 →
      xhs_parse prim sec head = (handle_result head r, 0)) ∧
    (∀ r, r.success ≠ some 1 → handle_result head r = .ok .err) ∧
    (∀ r d, r.success = some 1 → r.data = some d → d.images = none →
      d.download_url = none → handle_result head r = .ok .err) := by
  refine ⟨?_, ?_, ?_, ?_, ?_, ?_, ?_, ?_⟩
  · rintro r r2 rfl hcode hs
    simp [xhs_parse, hcode, hs]
  · rintro r2 rfl hs
    simp [xhs_parse, hs]
  · rintro r r3 rfl hcode hs0 hs1
    simp [xhs_parse, hcode, hs0, hs1]
  · rintro r rfl hcode hs0 hs1
    simp [xhs_parse, hcode, hs0, hs1]
  · rintro rfl hs0
    simp [xhs_parse, hs0]
  · rintro r rfl hcode
    simp [xhs_parse, hcode]
  · intro r hsucc
    unfold handle_result
    rw [if_neg hsucc]
  · intro r d hsucc hdata himg hdl
    simp [handle_result, hsucc, hdata, himg, hdl]

/-- C3 witness: a maintenance-code primary with a healthy secondary —
one secondary query, secondary payload processed — and the fall-through
to the structured error record on a success response with neither media
field. -/
theorem C3_failover_witness :
    ((.ok ⟨some 201, none, none⟩ : Except Unit XhsResp) = .ok ⟨some 201, none, none⟩) ∧
    xhs_parse (.ok ⟨some 201, none, none⟩)
        (fun _ => .ok ⟨none, some 1, some ⟨"T", "VT", some (.str "img"), none, none⟩⟩)
        (fun _ => 0)
      = (handle_result (fun _ => 0) ⟨none, some 1, some ⟨"T", "VT", some (.str "img"), none, none⟩⟩, 1) ∧
    handle_result (fun _ => 0) ⟨none, some 1, some ⟨"T", "VT", none, none, none⟩⟩
      = .ok .err :=
  ⟨rfl,
   (C3_failover (.ok ⟨some 201, none, none⟩)
       (fun _ => .ok ⟨none, some 1, some ⟨"T", "VT", some (.str "img"), none, none⟩⟩)
       (fun _ => 0)).1
     ⟨some 201, none, none⟩ ⟨none, some 1, some ⟨"T", "VT", some (.str "img"), none, none⟩⟩
     rfl rfl rfl,
   (C3_failover (.ok ⟨some 201, none, none⟩)
       (fun _ => .ok ⟨none, some 1, some ⟨"T", "VT", some (.str "img"), none, none⟩⟩)
       (fun _ => 0)).2.2.2.2.2.2.2
     ⟨none, some 1, some ⟨"T", "VT", none, none, none⟩⟩ ⟨"T", "VT", none, none, none⟩
     rfl rfl rfl rfl⟩

/-- C9 (confirmed): when no per-file deletion fails, the sweep deletes
exactly the regular files strictly older than the threshold and returns
their number; an immediately repeated sweep (same clock reading) deletes
nothing; a directory-level failure reports zero deletions instead of
raising. -/
theorem C9_retention_sweep (entries : List FileEntry) (th now : Int)
    (hok : ∀ e ∈ entries, e.removeFails = false) :
    delete_old_files (some entries) th now
        = ((entries.filter (expiredB (th * 60) now)).length,
           some (entries.filter (fun e => !(expiredB (th * 60) now e)))) ∧
    delete_old_files (some (entries.filter (fun e => !(expiredB (th * 60) now e)))) th now
        = (0, some (entries.filter (fun e => !(expiredB (th * 60) now e)))) ∧
    delete_old_files none th now = (0, none) := by
  have aux1 : ∀ (l : List FileEntry), (∀ e ∈ l, e.removeFails = false) →
      sweepEntries (th * 60) now l
        = ((l.filter (expiredB (th * 60) now)).length,
           l.filter (fun e => !(expiredB (th * 60) now e))) := by
    intro l
    induction l with
    | nil => intro _; simp [sweepEntries]
    | cons e l ih =>
      intro hl
      have he := hl e (List.mem_cons_self e l)
      have hrest : ∀ x ∈ l, x.removeFails = false :=
        fun x hx => hl x (List.mem_cons.mpr (Or.inr hx))
      by_cases hx : expiredB (th * 60) now e = true
      · simp [sweepEntries, hx, he, ih hrest, List.filter_cons]
      · simp only [Bool.not_eq_true] at hx
        simp [sweepEntries, hx, ih hrest, List.filter_cons]
  have aux2 : ∀ (l : List FileEntry), (∀ e ∈ l, expiredB (th * 60) now e = false) →
      sweepEntries (th * 60) now l = (0, l) := by
    intro l
    induction l with
    | nil => intro _; simp [sweepEntries]
    | cons e l ih =>
      intro hl
      have he := hl e (List.mem_cons_self e l)
      have hrest : ∀ x ∈ l, expiredB (th * 60) now x = false :=
        fun x hx => hl x (List.mem_cons.mpr (Or.inr hx))
      simp [sweepEntries, he, ih hrest]
  refine ⟨?_, ?_, rfl⟩
  · simp [delete_old_files, aux1 entries hok]
  · have hfil : ∀ e ∈ entries.filter (fun e => !(expiredB (th * 60) now e)),
        expiredB (th * 60) now e = false := by
      intro e he
      have := (List.mem_filter.mp he).2
      simpa using this
    simp [delete_old_files, aux2 _ hfil]

/-- C9 witness: the spec's 30/90-minute example under a 60-minute
threshold (clock at 6000s): only the older file is deleted, the count is
1, and the repeated sweep deletes 0; the failed-listing case returns
0. -/
theorem C9_retention_sweep_witness :
    (∀ e ∈ [(⟨"fresh", true, 4200, false⟩ : FileEntry), ⟨"old", true, 600, false⟩],
      e.removeFails = false) ∧
    (delete_old_files (some [(⟨"fresh", true, 4200, false⟩ : FileEntry), ⟨"old", true, 600, false⟩]) 60 6000
        = (([(⟨"fresh", true, 4200, false⟩ : FileEntry), ⟨"old", true, 600, false⟩].filter
              (expiredB (60 * 60) 6000)).length,
           some ([(⟨"fresh", true, 4200, false⟩ : FileEntry), ⟨"old", true, 600, false⟩].filter
              (fun e => !(expiredB (60 * 60) 6000 e)))) ∧
     delete_old_files
        (some ([(⟨"fresh", true, 4200, false⟩ : FileEntry), ⟨"old", true, 600, false⟩].filter
            (fun e => !(expiredB (60 * 60) 6000 e)))) 60 6000
        = (0, some ([(⟨"fresh", true, 4200, false⟩ : FileEntry), ⟨"old", true, 600, false⟩].filter
            (fun e => !(expiredB (60 * 60) 6000 e)))) ∧
     delete_old_files none 60 6000 = (0, none)) :=
  ⟨by decide,
   C9_retention_sweep [⟨"fresh", true, 4200, false⟩, ⟨"old", true, 600, false⟩] 60 6000
     (by decide)⟩

end VideosAnalysis
